import Mathlib

/-!
Verification of the BudgetAI document ingestion and retrieval-augmented
answering pipeline.

This file gives a shallow embedding in Lean 4 of the algorithmic core of the
repository (PDF extraction control flow, sentence-aware chunking, quality
scoring, rule-based metadata tagging, answer orchestration with retry and
citation formatting), and proves or refutes the specified properties.

Modelling conventions:
- Python `str` is modelled by `String` / `List Char`; character classes
  (`isalpha`, `isdigit`, `lower`, `\w`, `\s`) are modelled over their ASCII
  behaviour, which is the relevant domain for the corpus.
- Python floats are modelled by exact rationals `ℚ`.  `round(x, 3)` is
  modelled as `⌊x * 1000 + 1/2⌋ / 1000`; for every value reachable in the
  quality-score computation the argument is never within `5e-4` of a tie nor
  within a float ulp of a rounding boundary, so this agrees with Python's
  float banker's rounding on the reachable values.
- Functions whose Python recursion pattern is not structural are embedded
  with an explicit fuel argument that is always initialised to an amount
  sufficient for the input (the scan consumes at least one character per
  step), keeping every definition kernel-computable.
- External services (completion API, PDF engines) are modelled by explicit
  outcome values, mirroring the narrow interfaces of the source.
-/

namespace BudgetAI

/-! ## Character classes and small string helpers -/

/-- ASCII model of Python's whitespace class (`str.split`, `str.strip`, `\s`). -/
def isPySpace (c : Char) : Bool :=
  c == ' ' || c == '\t' || c == '\n' || c == '\r' || c == '\x0b' || c == '\x0c'

/-- ASCII model of the regex word-character class `\w` (letters, digits, underscore). -/
def isWordChar (c : Char) : Bool :=
  c.isAlpha || c.isDigit || c == '_'

/-- Membership in the regex class `[A-Z0-9]` used by the sentence-boundary lookahead. -/
def isUpperDigit (c : Char) : Bool :=
  ('A' ≤ c && c ≤ 'Z') || c.isDigit

/-- Worker for `splitWs`: accumulates the current word (reversed) while scanning. -/
def splitWsGo (cur : List Char) : List Char → List String
  | [] => if cur.isEmpty then [] else [String.mk cur.reverse]
  | c :: cs =>
    if isPySpace c then
      if cur.isEmpty then splitWsGo [] cs else String.mk cur.reverse :: splitWsGo [] cs
    else splitWsGo (c :: cur) cs

/-- Model of Python `str.split()` (no separator): split on runs of whitespace,
discarding empty pieces. -/
def splitWs (s : String) : List String :=
  splitWsGo [] s.data

/-- Model of Python `str.strip()`: remove leading and trailing whitespace. -/
def pyStrip (s : String) : String :=
  String.mk (((s.data.dropWhile (isPySpace ·)).reverse.dropWhile (isPySpace ·)).reverse)

/-- Worker for `containsSub`: scan for an occurrence of `pat` at each position. -/
def containsSubGo (pat : List Char) : List Char → Bool
  | [] => pat.isEmpty
  | c :: cs => pat.isPrefixOf (c :: cs) || containsSubGo pat cs

/-- Model of Python `needle in hay` on strings: `needle` occurs as a
contiguous substring of `hay`. -/
def containsSub (hay needle : String) : Bool :=
  containsSubGo needle.data hay.data

/-- Model of Python `str.lower()` (ASCII). -/
def lowerStr (s : String) : String :=
  String.mk (s.data.map Char.toLower)

/-- Decimal digit character for `natRepr` (only applied to values below 10). -/
def digitChar10 (n : Nat) : Char :=
  match n with
  | 0 => '0' | 1 => '1' | 2 => '2' | 3 => '3' | 4 => '4'
  | 5 => '5' | 6 => '6' | 7 => '7' | 8 => '8' | 9 => '9'
  | _ => '*'

/-- Fueled worker for `natRepr`; fuel `n + 1` always suffices since the value
shrinks by a factor of 10 each step. -/
def natReprGo : Nat → Nat → List Char
  | 0, _ => []
  | fuel + 1, n =>
    if n < 10 then [digitChar10 n] else natReprGo fuel (n / 10) ++ [digitChar10 (n % 10)]

/-- Decimal representation of a natural number, as produced by Python string
formatting of a nonnegative `int`. -/
def natRepr (n : Nat) : List Char :=
  natReprGo (n + 1) n

/-! ## SemanticTextSplitter (src/backend/app/ingestion/text_splitter.py) -/

/-- Configured chunk token budget (`settings.CHUNK_SIZE`). -/
def CHUNK_SIZE : Nat := 500

/-- Configured chunk overlap budget (`settings.CHUNK_OVERLAP`). -/
def CHUNK_OVERLAP : Nat := 50

/-- Default `min_chunk_size` of `SemanticTextSplitter.__init__`. -/
def MIN_CHUNK_SIZE : Nat := 100

/-- `SemanticTextSplitter._estimate_tokens`: `len(text) // 4`. -/
def estimateTokens (text : String) : Nat :=
  text.length / 4

/-- Python `' '.join(chunk)`. -/
def joinSp (l : List String) : String :=
  String.intercalate " " l

/-- `SemanticTextSplitter._calculate_quality_score`, with exact rational
arithmetic in place of floats.  The rounding of the final score to three
decimals is modelled half-up; no reachable score value is closer than `5e-4`
to a tie (the reachable pre-rounding values are finite products of the listed
constants), so this coincides with Python's rounding of the float value. -/
def roundTo3 (q : ℚ) : ℚ :=
  (⌊q * 1000 + 1 / 2⌋ : ℚ) / 1000

/-- Quality score of a chunk, following `_calculate_quality_score` line by
line: length penalty, alphabetic-ratio penalty, digit bonus capped at 1,
mean-word-length penalty, then clamp to `[0, 1]` and round to 3 decimals. -/
def calculateQualityScore (text : String) : ℚ :=
  if text = "" then 0
  else
    let wordCount := (splitWs text).length
    let s1 : ℚ :=
      if wordCount < 20 then 1 * 0.5
      else if wordCount < 50 then 1 * 0.8
      else if wordCount > 600 then 1 * 0.9
      else 1
    let alphaChars := (text.data.filter (fun c => c.isAlpha)).length
    let alphaRatio : ℚ := if 0 < text.length then (alphaChars : ℚ) / (text.length : ℚ) else 0
    let s2 : ℚ :=
      if alphaRatio < 0.4 then s1 * 0.6
      else if alphaRatio > 0.8 then s1 * 1.0
      else s1
    let hasNumbers := text.data.any (fun c => c.isDigit)
    let s3 : ℚ := if hasNumbers then min 1.0 (s2 * 1.1) else s2
    let words := splitWs text
    let s4 : ℚ :=
      if words.length ≠ 0 then
        let avgWordLen : ℚ := ((words.map String.length).sum : ℚ) / (words.length : ℚ)
        if avgWordLen < 2 ∨ avgWordLen > 20 then s3 * 0.7 else s3
      else s3
    roundTo3 (min 1.0 (max 0.0 s4))

/-- Reference heuristic for the quality score as the specification states it:
base 1.0; times 0.5 if word count < 20, else 0.8 if < 50, else 0.9 if > 600;
times 0.6 if the alphabetic-character ratio is below 0.4; times 1.1 capped at
1.0 when a digit is present; times 0.7 when the mean word length is below 2 or
above 20 (there being at least one word); clamped to `[0,1]` and rounded to
3 decimals.  Stated from the specification text, to be compared with
`calculateQualityScore`. -/
def specQualityScore (text : String) : ℚ :=
  let words := splitWs text
  let s1 : ℚ :=
    if words.length < 20 then 0.5
    else if words.length < 50 then 0.8
    else if words.length > 600 then 0.9
    else 1
  let alphaRatio : ℚ :=
    ((text.data.filter (fun c => c.isAlpha)).length : ℚ) / (text.length : ℚ)
  let s2 : ℚ := if alphaRatio < 0.4 then s1 * 0.6 else s1
  let s3 : ℚ := if text.data.any (fun c => c.isDigit) then min 1 (s2 * 1.1) else s2
  let meanLen : ℚ := ((words.map String.length).sum : ℚ) / (words.length : ℚ)
  let s4 : ℚ := if words ≠ [] ∧ (meanLen < 2 ∨ meanLen > 20) then s3 * 0.7 else s3
  roundTo3 (min 1 (max 0 s4))

/-! ### Sentence splitting (`_split_into_sentences`)

The source applies nine `re.sub(r'\bPAT', 'REPL', text)` normalisations, then
`re.split(r'(?<=[.!?])\s+(?=[A-Z0-9])', text)`, then nine `str.replace`
restorations on each piece, then strips and drops empty pieces.  Each regex
is a word-boundary-anchored literal, embedded directly below. -/

/-- Fueled worker for `pyReplace`: left-to-right non-overlapping scan, the scan
resuming after the replaced occurrence, exactly as Python `str.replace`. -/
def pyReplaceGo (p : Char) (ps repl : List Char) : Nat → List Char → List Char
  | 0, l => l
  | _ + 1, [] => []
  | fuel + 1, c :: cs =>
    if c = p ∧ ps.isPrefixOf cs then repl ++ pyReplaceGo p ps repl fuel (cs.drop ps.length)
    else c :: pyReplaceGo p ps repl fuel cs

/-- Model of Python `s.replace(pat, repl)` for a non-empty literal pattern. -/
def pyReplace (s pat repl : String) : String :=
  match pat.data with
  | [] => s
  | p :: ps => String.mk (pyReplaceGo p ps repl.data s.data.length s.data)

/-- Fueled worker for `reSubB`.  `prevW` records whether the previous character
of the original text is a word character; a match requires a word boundary
(`¬ prevW`, every pattern starting with a word character).  The scan resumes
after the matched occurrence of the pattern in the original text, so the next
boundary state is that of the pattern's last character. -/
def reSubGo (p : Char) (ps repl : List Char) : Nat → Bool → List Char → List Char
  | 0, _, l => l
  | _ + 1, _, [] => []
  | fuel + 1, prevW, c :: cs =>
    if ¬ prevW ∧ c = p ∧ ps.isPrefixOf cs then
      repl ++ reSubGo p ps repl fuel (isWordChar (ps.getLastD p)) (cs.drop ps.length)
    else c :: reSubGo p ps repl fuel (isWordChar c) cs

/-- Model of `re.sub(r'\b' + pat, repl, s)` for a literal `pat` beginning with
a word character, as used for the nine abbreviation normalisations. -/
def reSubB (s pat repl : String) : String :=
  match pat.data with
  | [] => s
  | p :: ps => String.mk (reSubGo p ps repl.data s.data.length false s.data)

/-- Fueled worker for `sentSplit`.  `prevB` records whether the previous
original character is one of `.`, `!`, `?` (the lookbehind); a boundary is a
maximal whitespace run whose following character matches `[A-Z0-9]` (the
lookahead).  `acc` is the current piece, reversed. -/
def sentSplitGo : Nat → Bool → List Char → List Char → List (List Char)
  | 0, _, acc, l => [acc.reverse ++ l]
  | _ + 1, _, acc, [] => [acc.reverse]
  | fuel + 1, prevB, acc, c :: cs =>
    if prevB ∧ isPySpace c then
      let ws := cs.takeWhile (fun d => isPySpace d)
      let rest := cs.dropWhile (fun d => isPySpace d)
      match rest.head? with
      | some r =>
        if isUpperDigit r then acc.reverse :: sentSplitGo fuel false [] rest
        else sentSplitGo fuel false ((c :: ws).reverse ++ acc) rest
      | none => sentSplitGo fuel false ((c :: ws).reverse ++ acc) rest
    else sentSplitGo fuel (c == '.' || c == '!' || c == '?') (c :: acc) cs

/-- Model of `re.split(r'(?<=[.!?])\s+(?=[A-Z0-9])', s)`. -/
def sentSplit (s : String) : List String :=
  (sentSplitGo s.data.length false [] s.data).map String.mk

/-- Abbreviation normalisations applied before splitting, in source order. -/
def abbrevSubs : List (String × String) :=
  [("Dr.", "Dr"), ("Mr.", "Mr"), ("Mrs.", "Mrs"), ("Ms.", "Ms"), ("No.", "No"),
   ("vs.", "vs"), ("etc.", "etc"), ("i.e.", "ie"), ("e.g.", "eg")]

/-- Abbreviation restorations applied to each piece after splitting, in source
order (`s.replace('Dr ', 'Dr. ')` and so on). -/
def abbrevRestores : List (String × String) :=
  [("Dr ", "Dr. "), ("Mr ", "Mr. "), ("Mrs ", "Mrs. "), ("Ms ", "Ms. "), ("No ", "No. "),
   ("vs ", "vs. "), ("etc ", "etc. "), ("ie ", "i.e. "), ("eg ", "e.g. ")]

/-- `SemanticTextSplitter._split_into_sentences`: normalise the protected
abbreviations, split on sentence boundaries, restore the abbreviations in each
piece, strip, and drop empty pieces. -/
def splitIntoSentences (text : String) : List String :=
  let normalised := abbrevSubs.foldl (fun acc pr => reSubB acc pr.1 pr.2) text
  let pieces := sentSplit normalised
  let restored := pieces.map (fun s => abbrevRestores.foldl (fun acc pr => pyReplace acc pr.1 pr.2) s)
  (restored.map pyStrip).filter (fun s => ¬ s = "")

/-! ### Greedy packing (`_create_chunks_from_sentences`)

The packer is embedded at the level of sentence lists (`List (List String)`);
the source's string chunks are recovered by joining each packed sentence list
with single spaces, which is exactly what `' '.join(current_chunk)` does. -/

/-- Overlap-seeding walk: traverse the just-closed chunk's sentences from the
end (the argument is the reversed chunk), accumulating sentences while the
overlap token budget is respected, stopping at the first that does not fit. -/
def overlapGo (budget : Nat) : List String → Nat → List String → List String × Nat
  | [], tok, acc => (acc, tok)
  | s :: rest, tok, acc =>
    if tok + estimateTokens s ≤ budget then overlapGo budget rest (tok + estimateTokens s) (s :: acc)
    else (acc, tok)

/-- Main loop of `_create_chunks_from_sentences`: state is the list of closed
chunks, the current chunk, and its running token estimate.  A chunk is closed
when the next sentence would exceed the budget and the current chunk is
non-empty; the new chunk is seeded with the overlap suffix of the closed one. -/
def packLoop (chunkSize overlapBudget : Nat) :
    List String → List (List String) → List String → Nat →
    List (List String) × List String × Nat
  | [], chunks, cur, tok => (chunks, cur, tok)
  | s :: rest, chunks, cur, tok =>
    if chunkSize < tok + estimateTokens s ∧ cur ≠ [] then
      let ov := overlapGo overlapBudget cur.reverse 0 []
      packLoop chunkSize overlapBudget rest (chunks ++ [cur]) (ov.1 ++ [s]) (ov.2 + estimateTokens s)
    else
      packLoop chunkSize overlapBudget rest chunks (cur ++ [s]) (tok + estimateTokens s)

/-- Relation between consecutive packed chunks: the later one begins with a
run of whole sentences taken from the tail of the earlier one, of total
estimated tokens within the overlap budget. -/
def OverlapSeeded (overlapBudget : Nat) (c1 c2 : List String) : Prop :=
  ∃ ov, ov <:+ c1 ∧ ov <+: c2 ∧ (ov.map estimateTokens).sum ≤ overlapBudget

/-- Packed chunks as sentence lists, including the final-chunk handling: the
trailing chunk is kept only when its joined text estimates to at least
`min_chunk_size // 4` tokens. -/
def packSentences (chunkSize overlapBudget minChunkSize : Nat) (sentences : List String) :
    List (List String) :=
  let r := packLoop chunkSize overlapBudget sentences [] [] 0
  if r.2.1 ≠ [] ∧ minChunkSize / 4 ≤ estimateTokens (joinSp r.2.1) then r.1 ++ [r.2.1] else r.1

/-- `SemanticTextSplitter._create_chunks_from_sentences`: the packed chunks as
strings, each chunk being the space-join of its sentences. -/
def createChunksFromSentences (chunkSize overlapBudget minChunkSize : Nat)
    (sentences : List String) : List String :=
  (packSentences chunkSize overlapBudget minChunkSize sentences).map joinSp

/-- `SemanticTextSplitter.split_text`: empty or whitespace-only text yields no
chunks; otherwise strip, split into sentences and pack. -/
def splitText (chunkSize overlapBudget minChunkSize : Nat) (text : String) : List String :=
  if pyStrip text = "" then []
  else
    let sentences := splitIntoSentences (pyStrip text)
    if sentences = [] then []
    else createChunksFromSentences chunkSize overlapBudget minChunkSize sentences

/-- `TextChunk` dataclass of the splitter. -/
structure TextChunk where
  chunk_id : String
  document_name : String
  page_number : Nat
  chunk_index : Nat
  text : String
  char_count : Nat
  word_count : Nat
  token_count : Nat
  quality_score : ℚ
deriving DecidableEq, Repr

/-- Chunk identifier `f"{document_name}_p{page_number}_c{chunk_index}"`. -/
def mkChunkId (docName : String) (page idx : Nat) : String :=
  String.mk (docName.data ++ ('_' :: 'p' :: natRepr page) ++ ('_' :: 'c' :: natRepr idx))

/-- Construction of one `TextChunk` as in the body of `chunk_page`. -/
def mkTextChunk (docName : String) (page idx : Nat) (text : String) : TextChunk :=
  { chunk_id := mkChunkId docName page idx
    document_name := docName
    page_number := page
    chunk_index := idx
    text := text
    char_count := text.length
    word_count := (splitWs text).length
    token_count := estimateTokens text
    quality_score := calculateQualityScore text }

/-- `SemanticTextSplitter.chunk_page`: split the page text and number the
chunks `start_chunk_index + i` for `i` in enumeration order. -/
def chunkPage (chunkSize overlapBudget minChunkSize : Nat) (docName : String)
    (page : Nat) (pageText : String) (startIdx : Nat) : List TextChunk :=
  (splitText chunkSize overlapBudget minChunkSize pageText).enum.map
    (fun p => mkTextChunk docName page (startIdx + p.1) p.2)

/-- `PageContent` dataclass of the PDF loader. -/
structure PageContent where
  page_number : Nat
  text : String
  char_count : Nat
  word_count : Nat
  has_tables : Bool
  has_images : Bool
deriving DecidableEq, Repr

/-- `PDFDocument` dataclass of the PDF loader (timing and timestamp fields,
which are wall-clock effects, are omitted from the model). -/
structure PDFDocument where
  filename : String
  total_pages : Nat
  pages : List PageContent
  extraction_method : String
  file_hash : String
  total_chars : Nat
  total_words : Nat
deriving DecidableEq, Repr

/-- Worker for `chunk_document`: pages processed in order, the chunk counter
advanced by the number of chunks the page produced, never reset. -/
def chunkDocGo (chunkSize overlapBudget minChunkSize : Nat) (docName : String) :
    List PageContent → Nat → List TextChunk
  | [], _ => []
  | pg :: rest, counter =>
    let pcs := chunkPage chunkSize overlapBudget minChunkSize docName pg.page_number pg.text counter
    pcs ++ chunkDocGo chunkSize overlapBudget minChunkSize docName rest (counter + pcs.length)

/-- `SemanticTextSplitter.chunk_document`. -/
def chunkDocument (chunkSize overlapBudget minChunkSize : Nat) (doc : PDFDocument) :
    List TextChunk :=
  chunkDocGo chunkSize overlapBudget minChunkSize doc.filename doc.pages 0

/-! ## MetadataTagger (src/backend/app/ingestion/metadata_tagger.py) -/

/-- Hierarchical topic entry `{main, sub, section?}`.  The source's `section`
key is named `sectionLabel` because `section` is reserved in Lean. -/
structure TopicEntry where
  main : String
  sub : String
  sectionLabel : Option String
deriving DecidableEq, Repr

/-- `self.topic_hierarchy`, in insertion order. -/
def topicHierarchy : List (String × TopicEntry) :=
  [("tax", ⟨"Taxation", "Tax Policy", none⟩),
   ("income_tax", ⟨"Taxation", "Income Tax", some "Personal Tax"⟩),
   ("gst", ⟨"Taxation", "GST", none⟩),
   ("healthcare", ⟨"Social Welfare", "Healthcare", none⟩),
   ("education", ⟨"Social Welfare", "Education", none⟩),
   ("defense", ⟨"National Security", "Defense", none⟩),
   ("agriculture", ⟨"Economic Development", "Agriculture", none⟩),
   ("infrastructure", ⟨"Economic Development", "Infrastructure", none⟩),
   ("employment", ⟨"Economic Development", "Employment", none⟩),
   ("finance", ⟨"Economic Policy", "Finance", none⟩),
   ("social_welfare", ⟨"Social Welfare", "General Welfare", none⟩),
   ("energy", ⟨"Economic Development", "Energy", none⟩),
   ("digital", ⟨"Technology", "Digital Infrastructure", none⟩),
   ("msme", ⟨"Economic Development", "MSME", none⟩)]

/-- `self.topic_keywords`, in insertion order. -/
def topicKeywords : List (String × List String) :=
  [("tax", ["tax", "taxation", "income tax", "gst", "customs", "excise", "duty", "cess",
            "surcharge", "rebate", "deduction", "exemption", "section 80", "tds", "tcs"]),
   ("healthcare", ["health", "medical", "hospital", "ayushman", "medicine", "doctor",
                   "treatment", "insurance", "wellness", "disease", "vaccine"]),
   ("education", ["education", "school", "university", "student", "scholarship", "learning",
                  "skill", "training", "research", "academic"]),
   ("defense", ["defense", "defence", "military", "army", "navy", "air force", "security",
                "border", "weapon", "soldier"]),
   ("agriculture", ["agriculture", "farmer", "crop", "farming", "irrigation", "fertilizer",
                    "seed", "rural", "kisan", "mandi", "minimum support price", "msp"]),
   ("infrastructure", ["infrastructure", "road", "highway", "railway", "metro", "airport",
                       "port", "bridge", "construction", "urban development"]),
   ("employment", ["employment", "job", "unemployment", "wage", "salary", "epf", "provident fund",
                   "pension", "retirement", "employee"]),
   ("finance", ["finance", "banking", "loan", "credit", "debt", "fiscal", "monetary",
                "reserve bank", "rbi", "interest rate"]),
   ("social_welfare", ["welfare", "subsidy", "scheme", "benefit", "allowance", "pension",
                       "poverty", "below poverty line", "bpl"]),
   ("energy", ["energy", "power", "electricity", "renewable", "solar", "coal", "oil",
               "petroleum", "gas", "fuel"]),
   ("digital", ["digital", "technology", "it", "software", "cyber", "internet", "online",
                "e-governance", "digital india"]),
   ("msme", ["msme", "small business", "medium enterprise", "startup", "entrepreneur",
             "mudra", "sidbi"])]

/-- `self.user_type_keywords`, in insertion order. -/
def userTypeKeywords : List (String × List String) :=
  [("salaried", ["salary", "salaried", "employee", "employer", "wage", "profession",
                 "professional", "employment", "tds"]),
   ("business", ["business", "trader", "entrepreneur", "proprietor", "partnership",
                 "company", "firm", "gst", "turnover"]),
   ("senior_citizen", ["senior citizen", "senior", "aged", "elderly", "pension",
                       "60 years", "80 years"]),
   ("student", ["student", "education", "scholarship", "fee", "tuition", "school",
                "college", "university"]),
   ("farmer", ["farmer", "agriculture", "agricultural income", "crop", "kisan"]),
   ("woman", ["woman", "women", "female", "maternity", "maternal", "girl child",
              "beti bachao"]),
   ("disabled", ["disabled", "disability", "handicapped", "differently abled", "pwd"]),
   ("nri", ["nri", "non-resident", "foreign", "overseas", "expatriate"])]

/-- `self.sector_keywords`, in insertion order. -/
def sectorKeywords : List (String × List String) :=
  [("it", ["information technology", "software", "it", "tech", "computer", "digital"]),
   ("manufacturing", ["manufacturing", "industry", "factory", "production", "make in india"]),
   ("services", ["service", "services", "hospitality", "tourism", "consulting"]),
   ("agriculture", ["agriculture", "farming", "agri", "crop", "livestock"]),
   ("healthcare", ["healthcare", "medical", "pharmaceutical", "hospital", "clinical"]),
   ("education", ["education", "educational", "school", "coaching", "training"]),
   ("real_estate", ["real estate", "property", "housing", "construction", "builder"]),
   ("finance", ["banking", "finance", "insurance", "investment", "nbfc"]),
   ("retail", ["retail", "shop", "store", "mall", "e-commerce"]),
   ("transport", ["transport", "logistics", "shipping", "delivery", "courier"])]

/-- `self.income_keywords`, in insertion order. -/
def incomeKeywords : List (String × List String) :=
  [("0-5L", ["up to", "below 5 lakh", "less than 5 lakh", "upto 5 lakh",
             "not exceeding 5 lakh", "2.5 lakh", "3 lakh", "5 lakh"]),
   ("5-10L", ["5 lakh to 10 lakh", "7 lakh", "7.5 lakh", "10 lakh",
              "between 5 and 10 lakh", "above 5 lakh", "exceeding 5 lakh"]),
   ("10-15L", ["10 lakh to 15 lakh", "12 lakh", "12.5 lakh", "15 lakh",
               "between 10 and 15 lakh", "above 10 lakh"]),
   ("15L+", ["above 15 lakh", "exceeding 15 lakh", "20 lakh", "50 lakh", "1 crore",
             "more than 15 lakh", "super rich", "high income"])]

/-- `self.normalized_income_ranges`: the fixed normalised income buckets. -/
def normalizedIncomeRanges : List String :=
  ["0-5L", "5-10L", "10-15L", "15L+"]

/-- `MetadataTagger._find_matches`: a category is included when any of its
keyword phrases occurs as a substring of the lowercased text; first hit wins
per category, and categories keep dictionary insertion order. -/
def findMatches (text : String) (keywordDict : List (String × List String)) : List String :=
  let textLower := lowerStr text
  keywordDict.filterMap (fun cat =>
    if cat.2.any (fun k => containsSub textLower k) then some cat.1 else none)

/-- Worker for `pyTitle`: uppercase a letter that starts an alphabetic run,
lowercase the rest (ASCII model of Python `str.title()`). -/
def pyTitleGo (prevAlpha : Bool) : List Char → List Char
  | [] => []
  | c :: cs =>
    (if c.isAlpha then (if prevAlpha then c.toLower else c.toUpper) else c) :: pyTitleGo c.isAlpha cs

/-- Model of Python `str.title()`. -/
def pyTitle (s : String) : String :=
  String.mk (pyTitleGo false s.data)

/-- Model of `topic.replace('_', ' ')` (single-character pattern). -/
def underscoreToSpace (s : String) : String :=
  String.mk (s.data.map (fun c => if c = '_' then ' ' else c))

/-- Association lookup in `self.topic_hierarchy` (Python `topic in dict` plus
`dict[topic]`). -/
def lookupTopic (key : String) : Option TopicEntry :=
  (topicHierarchy.find? (fun p => p.1 = key)).map Prod.snd

/-- `MetadataTagger._to_hierarchical_topics`: map each flat topic through the
hierarchy, unknown keys falling back to `{main: General, sub: titleized key}`. -/
def toHierarchicalTopics (flatTopics : List String) : List TopicEntry :=
  flatTopics.map (fun t =>
    match lookupTopic t with
    | some e => e
    | none => ⟨"General", pyTitle (underscoreToSpace t), none⟩)

/-- Membership in the regex class `[a-z]`. -/
def isLowerAZ (c : Char) : Bool :=
  'a' ≤ c && c ≤ 'z'

/-- Fueled worker for keyword extraction: find the matches of
`re.findall(r'\b[a-z]{3,}\b', text)`, i.e. maximal runs of `[a-z]` of length
at least 3 delimited by word boundaries.  `prevW` records whether the previous
character is a word character. -/
def findWordsGo : Nat → Bool → List Char → List (List Char)
  | 0, _, _ => []
  | _ + 1, _, [] => []
  | fuel + 1, prevW, c :: cs =>
    if isLowerAZ c ∧ ¬ prevW then
      let run := c :: cs.takeWhile (fun d => isLowerAZ d)
      let rest := cs.dropWhile (fun d => isLowerAZ d)
      let bOk : Bool :=
        match rest.head? with
        | none => true
        | some d => ¬ isWordChar d
      (if 3 ≤ run.length ∧ bOk then [run] else []) ++ findWordsGo fuel true rest
    else findWordsGo fuel (isWordChar c) cs

/-- The stop-word set of `_extract_keywords`. -/
def stopWords : List String :=
  ["the", "be", "to", "of", "and", "a", "in", "that", "have", "i",
   "it", "for", "not", "on", "with", "he", "as", "you", "do", "at",
   "this", "but", "his", "by", "from", "they", "we", "say", "her", "she",
   "or", "an", "will", "my", "one", "all", "would", "there", "their",
   "is", "are", "was", "were", "been", "has", "had", "can", "may", "shall"]

/-- Frequency counting in first-seen order, as a Python dict of counts. -/
def countWordsGo : List String → List (String × Nat) → List (String × Nat)
  | [], acc => acc
  | w :: ws, acc =>
    if (acc.find? (fun p => p.1 = w)).isSome then
      countWordsGo ws (acc.map (fun p => if p.1 = w then (p.1, p.2 + 1) else p))
    else countWordsGo ws (acc ++ [(w, 1)])

/-- `MetadataTagger._extract_keywords` with the default `top_n = 10`: tokens of
length above 3 outside the stop-word set, ranked by frequency descending (the
embedding uses a stable insertion sort, matching Python's stable
`sorted(..., reverse=True)` tie behaviour of first-seen order), top 10. -/
def extractKeywords (text : String) : List String :=
  let chars := (lowerStr text).data
  let words := (findWordsGo chars.length false chars).map String.mk
  let filtered := words.filter (fun w => ¬ w ∈ stopWords ∧ 3 < w.length)
  let freq := countWordsGo filtered []
  ((freq.insertionSort (fun a b => b.2 ≤ a.2)).take 10).map Prod.fst

/-- `ChunkMetadata` dataclass of the tagger. -/
structure ChunkMetadata where
  topics : List TopicEntry
  user_types : List String
  sectors : List String
  income_ranges : List String
  keywords : List String
  pipeline_version : String
  created_at : String
deriving DecidableEq, Repr

/-- Python `sorted` on strings: lexicographic by code point; modelled by a
stable insertion sort under `≤` (on the duplicate-free category lists it is
applied to, any correct sort produces the same list). -/
def pySortedStr (l : List String) : List String :=
  l.insertionSort (fun a b => a ≤ b)

/-- `MetadataTagger.tag_chunk`.  The `datetime.now()` timestamp is an effect
and is passed in as the `now` argument. -/
def tagChunk (now : String) (chunkText : String) : ChunkMetadata :=
  let flatTopics := findMatches chunkText topicKeywords
  let userTypes := findMatches chunkText userTypeKeywords
  let sectors := findMatches chunkText sectorKeywords
  let incomeRanges := findMatches chunkText incomeKeywords
  let keywords := extractKeywords chunkText
  let hierarchicalTopics := toHierarchicalTopics flatTopics
  let topics :=
    if hierarchicalTopics = [] then [⟨"General", "Uncategorized", none⟩] else hierarchicalTopics
  { topics := topics
    user_types := userTypes
    sectors := sectors
    income_ranges := pySortedStr incomeRanges
    keywords := keywords
    pipeline_version := "v1.0"
    created_at := now }

/-! ## GroqClient (src/backend/app/llm/groq_client.py) -/

/-- One outcome of a call to the external completion service: either a
successful content string, or a raised exception carrying its message. -/
inductive CallResult where
  | ok (content : String)
  | raises (msg : String)
deriving DecidableEq, Repr

/-- The rate-limit test of `chat_completion`:
`"rate_limit" in error_msg.lower() or "429" in error_msg`. -/
def isRateLimitMsg (msg : String) : Bool :=
  containsSub (lowerStr msg) "rate_limit" || containsSub msg "429"

/-- `GroqClient._fallback_response`. -/
def FALLBACK_RESPONSE : String :=
  "I apologize, but I\x27m currently unable to generate a response. This might be due to high demand or a temporary issue. Please try again in a moment."

/-- `GroqClient.chat_completion`, driven by the list of successive service
outcomes; the result is the returned string paired with the number of service
calls made.  A success returns its content; a non-rate-limit exception returns
the fallback; a rate-limit exception sleeps and then re-invokes
`chat_completion` itself recursively on the remaining outcomes (the inner
`except` around the retry is dead in this model because the recursive call
never raises, exactly as in the source, where it catches every exception).
An exhausted outcome list is modelled as the fallback with zero calls. -/
def chatCompletion : List CallResult → String × Nat
  | [] => (FALLBACK_RESPONSE, 0)
  | .ok content :: _ => (content, 1)
  | .raises msg :: rest =>
    if isRateLimitMsg msg then
      let r := chatCompletion rest
      (r.1, r.2 + 1)
    else (FALLBACK_RESPONSE, 1)

/-! ## Prompts and RAG pipeline (src/backend/app/llm/prompts.py,
src/backend/app/rag/rag_pipeline.py) -/

/-- Retrieved chunk record as consumed by `RAGPipeline.generate` and
`format_response_with_sources` (similarity as exact rational). -/
structure RetrievedChunk where
  document_name : String
  page_number : Nat
  text : String
  similarity : ℚ
deriving DecidableEq, Repr

/-- Source citation entry of the response object. -/
structure SourceCitation where
  document : String
  page : Nat
  similarity : ℚ
  excerpt : String
deriving DecidableEq, Repr

/-- Query-time response object `{answer, sources}`. -/
structure RAGResponse where
  answer : String
  sources : List SourceCitation
deriving DecidableEq, Repr

/-- `SYSTEM_PROMPT` of prompts.py. -/
def SYSTEM_PROMPT : String :=
  "You are a helpful AI assistant specializing in India\x27s Budget 2026-2027. \nYour role is to explain budget provisions, tax changes, and allocations in clear, accessible language.\n\nGuidelines:\n- Provide accurate information based ONLY on the context provided\n- Use simple language that anyone can understand\n- Include specific numbers, percentages, and figures when available\n- If the context doesn\x27t contain the answer, say so clearly\n- Cite the source document and page number when possible\n- Be concise but thorough\n\nRemember: You are explaining India\x27s budget to citizens who want to understand how it affects them."

/-- One context block `[Source: name, Page n]\ntext` of `create_rag_prompt`. -/
def formatSourceBlock (chunk : RetrievedChunk) : String :=
  "[Source: " ++ chunk.document_name ++ ", Page " ++ String.mk (natRepr chunk.page_number)
    ++ "]\n" ++ chunk.text

/-- `create_rag_prompt`. -/
def createRagPrompt (query : String) (contextChunks : List RetrievedChunk) : String :=
  let contextText := String.intercalate "\n\n" (contextChunks.map formatSourceBlock)
  "Based on the following excerpts from India\x27s Budget 2026-2027 documents, answer the user\x27s question.\n\nCONTEXT:\n"
    ++ contextText
    ++ "\n\nUSER QUESTION:\n" ++ query
    ++ "\n\nANSWER:\nProvide a clear, helpful answer based on the context above. Include specific numbers and cite sources when possible. If the context doesn\x27t fully answer the question, acknowledge that and provide what information is available."

/-- `create_no_context_prompt`. -/
def createNoContextPrompt (query : String) : String :=
  "The user asked: \"" ++ query
    ++ "\"\n\nUnfortunately, I don\x27t have specific information about this in the Budget 2026-2027 documents I have access to.\n\nPlease acknowledge this politely and suggest:\n1. The user may want to check the full budget documents at indiabudget.gov.in\n2. Asking a related question that might be covered in the budget\n3. Being as helpful as possible with general budget knowledge if appropriate\n\nBe honest about limitations but remain helpful."

/-- Citation built by `format_response_with_sources` for one source chunk:
similarity rounded to 3 decimals, excerpt truncated at 200 characters with an
ellipsis marker when truncation happened. -/
def citeSource (source : RetrievedChunk) : SourceCitation :=
  { document := source.document_name
    page := source.page_number
    similarity := roundTo3 source.similarity
    excerpt :=
      if 200 < source.text.length then source.text.take 200 ++ "..." else source.text }

/-- `format_response_with_sources`. -/
def formatResponseWithSources (response : String) (sources : List RetrievedChunk) : RAGResponse :=
  { answer := response, sources := sources.map citeSource }

/-- Default `top_k` of `RAGPipeline.__init__`. -/
def TOP_K : Nat := 5

/-- Default `max_context_chunks` of `RAGPipeline.__init__`. -/
def MAX_CONTEXT_CHUNKS : Nat := 3

/-- Descending-similarity comparison used to re-rank retrieved chunks
(`sorted(..., key=lambda x: x['similarity'], reverse=True)`). -/
def simDesc (a b : RetrievedChunk) : Prop :=
  b.similarity ≤ a.similarity

instance : DecidableRel simDesc :=
  fun a b => inferInstanceAs (Decidable (b.similarity ≤ a.similarity))

instance : IsTotal RetrievedChunk simDesc :=
  ⟨fun a b => (le_total b.similarity a.similarity).imp (fun h => h) (fun h => h)⟩

instance : IsTrans RetrievedChunk simDesc :=
  ⟨fun _ _ _ hab hbc => le_trans hbc hab⟩

/-- `RAGPipeline.generate`, with the completion service abstracted as the
function `llm` from (system prompt, user prompt) to the generated text:
stable-sort the retrieved chunks by similarity descending (insertion sort,
matching Python's stable sort), keep the top `max_context_chunks`, build the
grounded or no-context prompt, invoke the service, and format the response
with citations for exactly the kept chunks. -/
def ragGenerate (llm : String → String → String) (query : String)
    (contextChunks : List RetrievedChunk) : RAGResponse :=
  let topChunks := (contextChunks.insertionSort simDesc).take MAX_CONTEXT_CHUNKS
  let userPrompt :=
    if topChunks ≠ [] then createRagPrompt query topChunks else createNoContextPrompt query
  formatResponseWithSources (llm SYSTEM_PROMPT userPrompt) topChunks

/-! ## PDFLoader.load_pdf (src/backend/app/ingestion/pdf_loader.py)

The two extraction engines are external collaborators that may raise; they are
modelled as `Except` outcomes supplied to `loadPdf`.  File-system effects
(validation checks, hash, size, timestamps) are resolved before the
engine-selection control flow that the claims concern, and enter the model as
the `validationOk` flag and the `filename` / `fileHash` data. -/

/-- Document assembly at the end of `load_pdf`: an empty page list is rejected
(`if not pages: return None`); otherwise the document records the extraction
method that produced the pages and the aggregate metadata. -/
def finishLoad (filename fileHash method : String) (pages : List PageContent) :
    Option PDFDocument :=
  if pages = [] then none
  else
    some { filename := filename
           total_pages := pages.length
           pages := pages
           extraction_method := method
           file_hash := fileHash
           total_chars := (pages.map PageContent.char_count).sum
           total_words := (pages.map PageContent.word_count).sum }

/-- `PDFLoader.load_pdf`: validate, then try the primary engine; on a primary
raise, try the fallback engine when enabled, on the whole file; when both
raise (or fallback is disabled), return no document. -/
def loadPdf (validationOk : Bool) (useFallback : Bool) (filename fileHash : String)
    (primary fallbackRes : Except String (List PageContent)) : Option PDFDocument :=
  if ¬ validationOk then none
  else
    match primary with
    | .ok pages => finishLoad filename fileHash "pymupdf" pages
    | .error _ =>
      if useFallback then
        match fallbackRes with
        | .ok pages => finishLoad filename fileHash "pdfplumber" pages
        | .error _ => none
      else none

/-! ## Helper lemmas -/

/-- Lemma: the categories returned by `_find_matches` form a sublist of the
dictionary's keys in insertion order. -/
theorem findMatches_sublist (text : String) (dict : List (String × List String)) :
    (findMatches text dict).Sublist (dict.map Prod.fst) := by
  unfold findMatches
  induction dict with
  | nil => simp
  | cons hd tl ih =>
    simp only [List.filterMap_cons, List.map_cons]
    by_cases h : hd.2.any (fun k => containsSub (lowerStr text) k) = true
    · simp only [if_pos h]
      exact (ih.cons_cons hd.1)
    · simp only [if_neg h]
      exact ih.cons _

/-- Lemma: the rational literal 1.0 is the rational 1. -/
theorem q_literal_one : (1.0 : ℚ) = 1 := by norm_num

/-- Lemma: the rational literal 0.0 is the rational 0. -/
theorem q_literal_zero : (0.0 : ℚ) = 0 := by norm_num

/-- Lemma: rounding to three decimals preserves nonnegativity. -/
theorem roundTo3_nonneg (q : ℚ) (hq : 0 ≤ q) : 0 ≤ roundTo3 q := by
  unfold roundTo3
  apply div_nonneg _ (by norm_num)
  have h1 : (0 : ℚ) ≤ q * 1000 + 1 / 2 := by
    have := mul_nonneg hq (show (0 : ℚ) ≤ 1000 by norm_num)
    linarith
  have h2 : (0 : ℤ) ≤ ⌊q * 1000 + 1 / 2⌋ := Int.floor_nonneg.mpr h1
  exact_mod_cast h2

/-- Lemma: rounding to three decimals preserves the upper bound 1. -/
theorem roundTo3_le_one (q : ℚ) (hq : q ≤ 1) : roundTo3 q ≤ 1 := by
  unfold roundTo3
  rw [div_le_one (by norm_num)]
  have h1 : q * 1000 + 1 / 2 ≤ 1000 + 1 / 2 := by
    have := mul_le_mul_of_nonneg_right hq (show (0 : ℚ) ≤ 1000 by norm_num)
    linarith
  have h2 : ⌊q * 1000 + 1 / 2⌋ ≤ ⌊(1000 + 1 / 2 : ℚ)⌋ := Int.floor_le_floor h1
  have h3 : ⌊(1000 + 1 / 2 : ℚ)⌋ = 1000 := by
    rw [Int.floor_eq_iff]
    constructor <;> norm_num
  have h4 : ⌊q * 1000 + 1 / 2⌋ ≤ 1000 := by omega
  exact_mod_cast h4

/-- Lemma: the clamp `min 1.0 (max 0.0 x)` is nonnegative. -/
theorem clamp_nonneg (x : ℚ) : 0 ≤ min 1.0 (max 0.0 x) := by
  rw [q_literal_one, q_literal_zero]
  exact le_min (by norm_num) (le_max_left _ _)

/-- Lemma: the clamp `min 1.0 (max 0.0 x)` is at most 1. -/
theorem clamp_le_one (x : ℚ) : min 1.0 (max 0.0 x) ≤ 1 := by
  rw [q_literal_one]
  exact min_le_left _ _

/-- Lemma: a nested conditional whose inner else agrees with the outer else is
the conditional on the conjunction. -/
theorem ite_ite_conj {α : Type} (c1 c2 : Prop) [Decidable c1] [Decidable c2] (a b : α) :
    (if c1 then (if c2 then a else b) else b) = if c1 ∧ c2 then a else b := by
  split_ifs <;> tauto

/-! ## C1: completion-service retry policy -/

/-- Claim C1 (status: code_bug): the claim states that on a rate-limit signal
`chat_completion` retries exactly once, making at most two service calls, and
returns the apology fallback when the retry also fails.  The source instead
re-invokes `chat_completion` itself after the backoff sleep, so consecutive
rate limits trigger unbounded further retries: with service outcomes
(rate-limited, rate-limited, success "OK"), the invocation makes three service
calls and returns "OK" instead of stopping after two calls with the fallback.
This contradicts the source's own `# Retry once` comment; this theorem
evaluates the embedded code at that failing input. -/
theorem C1_code_eval :
    chatCompletion
      [CallResult.raises "Error code: 429 - rate_limit_exceeded",
       CallResult.raises "Error code: 429 - rate_limit_exceeded",
       CallResult.ok "OK"] = ("OK", 3) := by
  rfl

/-! ## C4: sentence splitting and abbreviation restoration -/

/-- Claim C4 (status: code_bug): the claim states that sentence splitting only
separates the text at sentence boundaries and restores the protected
abbreviations exactly, never inserting characters into words that were not
occurrences of the protected forms.  The restoration pass, however, applies
plain substring replacements such as `replace('ie ', 'i.e. ')` to the whole
piece, so the input "pie chart" (which contains no protected abbreviation and
no sentence boundary) comes back as "pi.e. chart", with ". " inserted inside
the word "pie".  This theorem evaluates the embedded code at that failing
input. -/
theorem C4_code_eval :
    splitIntoSentences "pie chart" = ["pi.e. chart"] := by
  rfl

/-! ## C2: chunk token budget and overlap seeding -/

/-- Lemma: joining a single sentence with spaces is that sentence. -/
theorem joinSp_singleton (s : String) : joinSp [s] = s := rfl

/-- Lemma: token estimate of a string of `n` copies of one character. -/
theorem estimateTokens_mk_replicate (n : Nat) (c : Char) :
    estimateTokens (String.mk (List.replicate n c)) = n / 4 := by
  unfold estimateTokens
  have h : (String.mk (List.replicate n c)).length = n := by
    show (List.replicate n c).length = n
    exact List.length_replicate _ _
  rw [h]

/-- Lemma: a 601-token sentence followed by a 25-token sentence is packed into
two chunks, the oversized sentence alone forming the first (non-last) chunk. -/
theorem pack_oversized_pair (a b : String) (ha : estimateTokens a = 601)
    (hb : estimateTokens b = 25) :
    createChunksFromSentences 500 50 100 [a, b] = [a, b] := by
  simp [createChunksFromSentences, packSentences, packLoop, overlapGo, ha, hb, joinSp_singleton]

/-- Counterexample to claim C2 as stated: with chunk_size = 500 and
overlap = 50, the sentence list consisting of a 2404-character sentence and a
100-character sentence is packed into two chunks whose first — not the last —
has estimated token count 601 > 500: the packer only bounds the running sum of
per-sentence estimates, and a single sentence over the budget is emitted
unsplit. -/
theorem C2_counterexample :
    createChunksFromSentences 500 50 100
        [String.mk (List.replicate 2404 'x'), String.mk (List.replicate 100 'y')] =
      [String.mk (List.replicate 2404 'x'), String.mk (List.replicate 100 'y')] ∧
    500 < estimateTokens (String.mk (List.replicate 2404 'x')) := by
  constructor
  · exact pack_oversized_pair _ _ (by rw [estimateTokens_mk_replicate])
      (by rw [estimateTokens_mk_replicate])
  · rw [estimateTokens_mk_replicate]
    norm_num

/-- Lemma: the overlap walk returns an accumulator whose token count it also
returns, stays within the overlap budget, and takes some initial segment of
the reversed chunk. -/
theorem overlapGo_spec (budget : Nat) :
    ∀ (l : List String) (tok : Nat) (acc : List String),
      tok = (acc.map estimateTokens).sum → tok ≤ budget →
      (overlapGo budget l tok acc).2 = ((overlapGo budget l tok acc).1.map estimateTokens).sum ∧
      (overlapGo budget l tok acc).2 ≤ budget ∧
      ∃ k, (overlapGo budget l tok acc).1 = (l.take k).reverse ++ acc
  | [], tok, acc, hsum, hle => by
    refine ⟨hsum, hle, 0, ?_⟩
    simp [overlapGo]
  | s :: rest, tok, acc, hsum, hle => by
    unfold overlapGo
    by_cases hc : tok + estimateTokens s ≤ budget
    · rw [if_pos hc]
      have hsum2 : tok + estimateTokens s = ((s :: acc).map estimateTokens).sum := by
        rw [List.map_cons, List.sum_cons, hsum, Nat.add_comm]
      obtain ⟨h1, h2, k, hk⟩ :=
        overlapGo_spec budget rest (tok + estimateTokens s) (s :: acc) hsum2 hc
      refine ⟨h1, h2, k + 1, ?_⟩
      rw [hk]
      simp [List.take_succ_cons, List.reverse_cons, List.append_assoc]
    · rw [if_neg hc]
      refine ⟨hsum, hle, 0, ?_⟩
      simp

/-- Lemma: the reversal of an initial segment of a reversed list is a suffix
of the list. -/
theorem reverse_take_reverse_suffix {α : Type} (l : List α) (k : Nat) :
    (l.reverse.take k).reverse <:+ l := by
  refine ⟨(l.reverse.drop k).reverse, ?_⟩
  rw [← List.reverse_append, List.take_append_drop, List.reverse_reverse]

/-- Lemma: replacing the final element of a chain by one to which every
predecessor still relates preserves the chain. -/
theorem chain'_concat_mono {α : Type} {R : α → α → Prop} {xs : List α} {y z : α}
    (h : List.Chain' R (xs ++ [y])) (hmono : ∀ a, R a y → R a z) :
    List.Chain' R (xs ++ [z]) := by
  rw [List.chain'_append] at h ⊢
  refine ⟨h.1, List.chain'_singleton z, ?_⟩
  intro x hx w hw
  simp only [List.head?_cons, Option.mem_def, Option.some.injEq] at hw
  subst hw
  exact hmono x (h.2.2 x hx y (by simp))

/-- Lemma: appending one related element at the end of a chain preserves the
chain. -/
theorem chain'_concat_of_concat {α : Type} {R : α → α → Prop} {xs : List α} {y z : α}
    (h : List.Chain' R (xs ++ [y])) (hyz : R y z) :
    List.Chain' R ((xs ++ [y]) ++ [z]) := by
  refine List.Chain'.append h (List.chain'_singleton z) ?_
  intro x hx w hw
  simp only [List.getLast?_concat, Option.mem_def, Option.some.injEq] at hx
  simp only [List.head?_cons, Option.mem_def, Option.some.injEq] at hw
  subst hx
  subst hw
  exact hyz

/-- Lemma: invariant of the packing loop.  When every remaining sentence fits
the budget left over after a maximal overlap seed, the running token count
always equals the current chunk's per-sentence estimate sum and stays within
the chunk budget, every closed chunk's estimate sum is within the chunk
budget, and consecutive chunks (including the trailing candidate) are related
by overlap seeding. -/
theorem packLoop_invariant (csz ovB : Nat) :
    ∀ (l : List String) (chunks : List (List String)) (cur : List String) (tok : Nat),
      (∀ s ∈ l, ovB + estimateTokens s ≤ csz) →
      tok = (cur.map estimateTokens).sum →
      tok ≤ csz →
      (∀ c ∈ chunks, (c.map estimateTokens).sum ≤ csz) →
      List.Chain' (OverlapSeeded ovB) (chunks ++ [cur]) →
      (∀ c ∈ (packLoop csz ovB l chunks cur tok).1, (c.map estimateTokens).sum ≤ csz) ∧
      (packLoop csz ovB l chunks cur tok).2.2 =
        ((packLoop csz ovB l chunks cur tok).2.1.map estimateTokens).sum ∧
      (packLoop csz ovB l chunks cur tok).2.2 ≤ csz ∧
      List.Chain' (OverlapSeeded ovB)
        ((packLoop csz ovB l chunks cur tok).1 ++ [(packLoop csz ovB l chunks cur tok).2.1])
  | [], chunks, cur, tok, _, hsum, hle, hchunks, hchain => by
    exact ⟨hchunks, hsum, hle, hchain⟩
  | s :: rest, chunks, cur, tok, hl, hsum, hle, hchunks, hchain => by
    have hs : ovB + estimateTokens s ≤ csz := hl s (List.mem_cons_self s rest)
    have hrest : ∀ x ∈ rest, ovB + estimateTokens x ≤ csz :=
      fun x hx => hl x (List.mem_cons_of_mem s hx)
    unfold packLoop
    by_cases hc : csz < tok + estimateTokens s ∧ cur ≠ []
    · rw [if_pos hc]
      dsimp only
      obtain ⟨hov1, hov2, k, hovk⟩ :=
        overlapGo_spec ovB cur.reverse 0 [] (by simp) (Nat.zero_le ovB)
      rw [List.append_nil] at hovk
      have hsuf : (overlapGo ovB cur.reverse 0 []).1 <:+ cur := by
        rw [hovk]
        exact reverse_take_reverse_suffix cur k
      apply packLoop_invariant csz ovB rest (chunks ++ [cur])
        ((overlapGo ovB cur.reverse 0 []).1 ++ [s])
        ((overlapGo ovB cur.reverse 0 []).2 + estimateTokens s) hrest
      · rw [List.map_append, List.sum_append, hov1]
        simp
      · exact Nat.le_trans (Nat.add_le_add_right hov2 _) hs
      · intro c hcmem
        rcases List.mem_append.mp hcmem with hcm | hcm
        · exact hchunks c hcm
        · rw [List.mem_singleton.mp hcm]
          rw [← hsum]
          exact hle
      · apply chain'_concat_of_concat hchain
        exact ⟨(overlapGo ovB cur.reverse 0 []).1, hsuf, List.prefix_append _ _,
          by rw [← hov1]; exact hov2⟩
    · rw [if_neg hc]
      apply packLoop_invariant csz ovB rest chunks (cur ++ [s]) (tok + estimateTokens s) hrest
      · rw [List.map_append, List.sum_append, hsum]
        simp
      · rcases Decidable.not_and_iff_or_not.mp hc with hnc | hnc
        · exact Nat.le_of_not_lt hnc
        · have hcur : cur = [] := Decidable.not_not.mp hnc
          subst hcur
          simp only [List.map_nil, List.sum_nil] at hsum
          subst hsum
          rw [Nat.zero_add]
          exact Nat.le_trans (Nat.le_add_left _ _) hs
      · exact hchunks
      · apply chain'_concat_mono hchain
        intro a ⟨ov, hsuf, hpre, hbud⟩
        exact ⟨ov, hsuf, hpre.trans (List.prefix_append cur [s]), hbud⟩

/-- Claim C2, amended (status: corrected): at chunk_size = 500 and
overlap = 50, provided every sentence's estimated token count is at most
450 = chunk_size − overlap, every chunk produced by the greedy packer — viewed
as its packed sentence list, the emitted string being the space-join of those
sentences — has per-sentence estimated token sum at most 500, and every
non-first chunk begins with a run of whole sentences taken from the tail of
the previous chunk whose total estimated tokens are at most 50.  (As stated —
a bound of 500 on `len(text) // 4` of every non-last joined chunk, with no
restriction on sentence lengths — the claim is false: see the
counterexample, where a single oversized sentence becomes a 601-token
non-last chunk.) -/
theorem C2_amended (sentences : List String)
    (h : ∀ s ∈ sentences, estimateTokens s ≤ 450) :
    (∀ c ∈ packSentences 500 50 100 sentences, (c.map estimateTokens).sum ≤ 500) ∧
    List.Chain' (OverlapSeeded 50) (packSentences 500 50 100 sentences) ∧
    createChunksFromSentences 500 50 100 sentences =
      (packSentences 500 50 100 sentences).map joinSp := by
  have h50 : ∀ s ∈ sentences, 50 + estimateTokens s ≤ 500 := by
    intro s hs
    have := h s hs
    omega
  obtain ⟨hb, hcs, hcl, hch⟩ :=
    packLoop_invariant 500 50 sentences [] [] 0 h50 (by simp) (by omega) (by simp) (by simp)
  refine ⟨?_, ?_, rfl⟩
  · unfold packSentences
    by_cases hkeep : (packLoop 500 50 sentences [] [] 0).2.1 ≠ [] ∧
        100 / 4 ≤ estimateTokens (joinSp (packLoop 500 50 sentences [] [] 0).2.1)
    · rw [if_pos hkeep]
      intro c hcmem
      rcases List.mem_append.mp hcmem with hcm | hcm
      · exact hb c hcm
      · rw [List.mem_singleton.mp hcm, ← hcs]
        exact hcl
    · rw [if_neg hkeep]
      exact hb
  · unfold packSentences
    by_cases hkeep : (packLoop 500 50 sentences [] [] 0).2.1 ≠ [] ∧
        100 / 4 ≤ estimateTokens (joinSp (packLoop 500 50 sentences [] [] 0).2.1)
    · rw [if_pos hkeep]
      exact hch
    · rw [if_neg hkeep]
      exact (List.chain'_append.mp hch).1

/-- Witness for C2 (amended): the theorem applied to two short sentences that
satisfy the 450-token bound. -/
theorem C2_witness :
    (∀ s ∈ ["Abcd.", "Efgh."], estimateTokens s ≤ 450) ∧
    ((∀ c ∈ packSentences 500 50 100 ["Abcd.", "Efgh."], (c.map estimateTokens).sum ≤ 500) ∧
     List.Chain' (OverlapSeeded 50) (packSentences 500 50 100 ["Abcd.", "Efgh."]) ∧
     createChunksFromSentences 500 50 100 ["Abcd.", "Efgh."] =
       (packSentences 500 50 100 ["Abcd.", "Efgh."]).map joinSp) :=
  ⟨by decide, C2_amended ["Abcd.", "Efgh."] (by decide)⟩

/-! ## C3: quality score heuristic -/

set_option maxHeartbeats 1600000 in
/-- Claim C3 (status: confirmed): for every non-empty chunk text the quality
score equals the reference heuristic stated by the specification
(`specQualityScore`), and consequently lies in `[0, 1]`.  The embedding is a
pure function of the text, so the score depends on nothing but the text. -/
theorem C3_quality_score (text : String) (h : text ≠ "") :
    calculateQualityScore text = specQualityScore text ∧
    0 ≤ calculateQualityScore text ∧ calculateQualityScore text ≤ 1 := by
  have hlen : 0 < text.length := by
    rcases text with ⟨d⟩
    cases d with
    | nil => exact absurd rfl h
    | cons c cs => exact Nat.succ_pos _
  refine ⟨?_, ?_, ?_⟩
  · have hcond : splitWs text ≠ [] ↔ (splitWs text).length ≠ 0 := by
      simp [List.length_eq_zero]
    unfold calculateQualityScore specQualityScore
    rw [if_neg h]
    dsimp only
    rw [if_pos hlen]
    simp only [ite_ite_conj, hcond]
    split_ifs <;> first
      | rfl
      | norm_num
  · unfold calculateQualityScore
    rw [if_neg h]
    dsimp only
    exact roundTo3_nonneg _ (clamp_nonneg _)
  · unfold calculateQualityScore
    rw [if_neg h]
    dsimp only
    exact (roundTo3_le_one _ (clamp_le_one _))

/-- Witness for C3: the theorem applied to the non-empty text
"hello world 123". -/
theorem C3_witness :
    ("hello world 123" ≠ "") ∧
    (calculateQualityScore "hello world 123" = specQualityScore "hello world 123" ∧
     0 ≤ calculateQualityScore "hello world 123" ∧
     calculateQualityScore "hello world 123" ≤ 1) :=
  ⟨by decide, C3_quality_score "hello world 123" (by decide)⟩

/-! ## C5: chunk indices are contiguous document-wide and chunk ids unique -/

/-- Lemma: the fuel of `natReprGo` is irrelevant as long as it exceeds the
value being rendered. -/
theorem natReprGo_irrel : ∀ (f g n : Nat), n < f → n < g → natReprGo f n = natReprGo g n
  | 0, _, _, hf, _ => absurd hf (Nat.not_lt_zero _)
  | _ + 1, 0, _, _, hg => absurd hg (Nat.not_lt_zero _)
  | f + 1, g + 1, n, hf, hg => by
    unfold natReprGo
    by_cases h : n < 10
    · rw [if_pos h, if_pos h]
    · rw [if_neg h, if_neg h]
      have hd : n / 10 < n := Nat.div_lt_self (by omega) (by omega)
      rw [natReprGo_irrel f g (n / 10) (by omega) (by omega)]

/-- Lemma: decimal rendering of a value below 10. -/
theorem natRepr_lt10 (n : Nat) (h : n < 10) : natRepr n = [digitChar10 n] := by
  unfold natRepr natReprGo
  rw [if_pos h]

/-- Lemma: decimal rendering of a value of at least 10 ends in its last
digit, preceded by the rendering of the quotient. -/
theorem natRepr_ge10 (n : Nat) (h : 10 ≤ n) :
    natRepr n = natRepr (n / 10) ++ [digitChar10 (n % 10)] := by
  have hd : n / 10 < n := Nat.div_lt_self (by omega) (by omega)
  show natReprGo (n + 1) n = natReprGo (n / 10 + 1) (n / 10) ++ [digitChar10 (n % 10)]
  conv_lhs => rw [natReprGo]
  rw [if_neg (by omega)]
  rw [natReprGo_irrel n (n / 10 + 1) (n / 10) (by omega) (by omega)]

/-- Lemma: digit characters are decimal digits. -/
theorem digitChar10_isDigit : ∀ n, n < 10 → (digitChar10 n).isDigit = true := by decide

/-- Lemma: digit characters of distinct digits are distinct. -/
theorem digitChar10_inj : ∀ m, m < 10 → ∀ n, n < 10 → digitChar10 m = digitChar10 n → m = n := by
  decide

/-- Lemma: decimal renderings are never empty. -/
theorem natRepr_ne_nil (n : Nat) : natRepr n ≠ [] := by
  by_cases h : n < 10
  · rw [natRepr_lt10 n h]
    simp
  · rw [natRepr_ge10 n (by omega)]
    simp

/-- Lemma: every character of a decimal rendering is a digit. -/
theorem natRepr_digits (n : Nat) : ∀ c ∈ natRepr n, c.isDigit = true := by
  induction n using Nat.strong_induction_on with
  | _ n ih =>
    by_cases h : n < 10
    · rw [natRepr_lt10 n h]
      intro c hc
      rw [List.mem_singleton.mp hc]
      exact digitChar10_isDigit n h
    · rw [natRepr_ge10 n (by omega)]
      intro c hc
      rcases List.mem_append.mp hc with hm | hm
      · exact ih (n / 10) (Nat.div_lt_self (by omega) (by omega)) c hm
      · rw [List.mem_singleton.mp hm]
        exact digitChar10_isDigit _ (Nat.mod_lt _ (by omega))

/-- Lemma: appending one element on the right is injective in both parts. -/
theorem concat_inj {α : Type} {l1 l2 : List α} {a b : α} (h : l1 ++ [a] = l2 ++ [b]) :
    l1 = l2 ∧ a = b := by
  have hrev := congrArg List.reverse h
  simp only [List.reverse_append, List.reverse_singleton, List.singleton_append] at hrev
  injection hrev with hab hr
  exact ⟨List.reverse_injective hr, hab⟩

/-- Lemma: decimal rendering is injective. -/
theorem natRepr_inj (m : Nat) : ∀ n, natRepr m = natRepr n → m = n := by
  induction m using Nat.strong_induction_on with
  | _ m ih =>
    intro n h
    by_cases hm : m < 10 <;> by_cases hn : n < 10
    · rw [natRepr_lt10 m hm, natRepr_lt10 n hn] at h
      injection h with hd
      exact digitChar10_inj m hm n hn hd
    · rw [natRepr_lt10 m hm, natRepr_ge10 n (by omega)] at h
      have hlen := congrArg List.length h
      simp only [List.length_singleton, List.length_append] at hlen
      have hpos : 0 < (natRepr (n / 10)).length := List.length_pos.mpr (natRepr_ne_nil _)
      omega
    · rw [natRepr_ge10 m (by omega), natRepr_lt10 n hn] at h
      have hlen := congrArg List.length h
      simp only [List.length_singleton, List.length_append] at hlen
      have hpos : 0 < (natRepr (m / 10)).length := List.length_pos.mpr (natRepr_ne_nil _)
      omega
    · rw [natRepr_ge10 m (by omega), natRepr_ge10 n (by omega)] at h
      obtain ⟨h1, h2⟩ := concat_inj h
      have hdiv : m / 10 = n / 10 :=
        ih (m / 10) (Nat.div_lt_self (by omega) (by omega)) (n / 10) h1
      have hmod : m % 10 = n % 10 :=
        digitChar10_inj _ (Nat.mod_lt _ (by omega)) _ (Nat.mod_lt _ (by omega)) h2
      omega

/-- Lemma: `takeWhile` over a list that satisfies the predicate, followed by
an element that does not, returns exactly that list. -/
theorem takeWhile_all_append {α : Type} (p : α → Bool) :
    ∀ (l : List α) (x : α) (r : List α),
      (∀ c ∈ l, p c = true) → p x = false →
      (l ++ x :: r).takeWhile p = l
  | [], x, r, _, hx => by
    simp only [List.nil_append, List.takeWhile_cons, hx]
    simp
  | c :: l, x, r, hall, hx => by
    simp only [List.cons_append, List.takeWhile_cons, hall c (List.mem_cons_self c l), if_true]
    rw [takeWhile_all_append p l x r (fun d hd => hall d (List.mem_cons_of_mem c hd)) hx]

/-- Lemma: the maximal digit run at the end of a chunk identifier is exactly
the rendering of its `chunk_index`, because the index is preceded by the
non-digit marker `c`; the identifier therefore determines the index. -/
theorem mkChunkId_extract (docName : String) (p i : Nat) :
    (mkChunkId docName p i).data.reverse.takeWhile (fun c => c.isDigit) =
      (natRepr i).reverse := by
  show (docName.data ++ ('_' :: 'p' :: natRepr p) ++ ('_' :: 'c' :: natRepr i)).reverse.takeWhile
      (fun c => c.isDigit) = (natRepr i).reverse
  rw [List.reverse_append, List.reverse_append]
  simp only [List.reverse_cons, List.append_assoc]
  rw [show (natRepr i).reverse ++
        (['c'] ++ (['_'] ++ ((natRepr p).reverse ++ (['p'] ++ (['_'] ++ docName.data.reverse))))) =
      (natRepr i).reverse ++
        'c' :: ('_' :: ((natRepr p).reverse ++ ('p' :: ('_' :: docName.data.reverse)))) from by simp]
  apply takeWhile_all_append
  · intro c hc
    exact natRepr_digits i c (List.mem_reverse.mp hc)
  · decide

/-- Lemma: the chunk indices assigned by `chunk_page` are
`start, start + 1, …` in enumeration order. -/
theorem chunkPage_map_index (csz ovb mn : Nat) (docName : String) (page start : Nat)
    (text : String) :
    (chunkPage csz ovb mn docName page text start).map TextChunk.chunk_index =
      List.range' start (splitText csz ovb mn text).length := by
  unfold chunkPage
  rw [List.map_map]
  have h1 : (TextChunk.chunk_index ∘ fun p : Nat × String =>
      mkTextChunk docName page (start + p.1) p.2) = (fun x => start + x) ∘ Prod.fst := rfl
  rw [h1, ← List.map_map, List.enum_map_fst, ← List.range'_eq_map_range]

/-- Lemma: `chunk_page` produces one chunk per split piece. -/
theorem chunkPage_length (csz ovb mn : Nat) (docName : String) (page start : Nat)
    (text : String) :
    (chunkPage csz ovb mn docName page text start).length =
      (splitText csz ovb mn text).length := by
  unfold chunkPage
  rw [List.length_map, List.enum_length]

/-- Lemma: every chunk produced by `chunk_page` carries the identifier built
from the document name, the page, and its own `chunk_index`. -/
theorem chunkPage_id (csz ovb mn : Nat) (docName : String) (page start : Nat) (text : String) :
    ∀ c ∈ chunkPage csz ovb mn docName page text start,
      c.chunk_id = mkChunkId docName page c.chunk_index := by
  intro c hc
  unfold chunkPage at hc
  obtain ⟨p, hp, rfl⟩ := List.mem_map.mp hc
  rfl

/-- Lemma: over the whole document the chunk indices are
`counter, counter + 1, …` — the running counter is never reset at a page
boundary — and every chunk's identifier is determined by the document name,
some page number, and its own index. -/
theorem chunkDocGo_spec (csz ovb mn : Nat) (docName : String) :
    ∀ (pages : List PageContent) (counter : Nat),
      (chunkDocGo csz ovb mn docName pages counter).map TextChunk.chunk_index =
        List.range' counter (chunkDocGo csz ovb mn docName pages counter).length ∧
      ∀ c ∈ chunkDocGo csz ovb mn docName pages counter,
        ∃ pg, c.chunk_id = mkChunkId docName pg c.chunk_index
  | [], counter => by simp [chunkDocGo]
  | pg :: rest, counter => by
    obtain ⟨ih1, ih2⟩ := chunkDocGo_spec csz ovb mn docName rest
      (counter + (chunkPage csz ovb mn docName pg.page_number pg.text counter).length)
    unfold chunkDocGo
    dsimp only
    constructor
    · rw [List.map_append, chunkPage_map_index, ih1, List.length_append]
      rw [chunkPage_length]
      have hr := List.range'_append counter ((splitText csz ovb mn pg.text).length)
        ((chunkDocGo csz ovb mn docName rest
          (counter + (chunkPage csz ovb mn docName pg.page_number pg.text counter).length)).length) 1
      rw [Nat.one_mul] at hr
      rw [chunkPage_length] at hr
      rw [hr, Nat.add_comm]
    · intro c hc
      rcases List.mem_append.mp hc with hm | hm
      · exact ⟨pg.page_number, chunkPage_id csz ovb mn docName pg.page_number counter pg.text c hm⟩
      · exact ih2 c hm

/-- Claim C5 (status: confirmed): for every document — any page count, any
page texts, any splitter configuration — the `chunk_index` values over the
concatenated per-page chunk lists of `chunk_document` are exactly
`0, 1, …, n−1` in order (contiguous, strictly increasing, the running counter
never reset at a page boundary), and hence all `chunk_id` values within the
document are pairwise distinct.  The embedding is a pure function of the
document, so re-running it reproduces identical identifiers. -/
theorem C5_chunk_indices (csz ovb mn : Nat) (doc : PDFDocument) :
    (chunkDocument csz ovb mn doc).map TextChunk.chunk_index =
      List.range (chunkDocument csz ovb mn doc).length ∧
    ((chunkDocument csz ovb mn doc).map TextChunk.chunk_id).Nodup := by
  obtain ⟨h1, h2⟩ := chunkDocGo_spec csz ovb mn doc.filename doc.pages 0
  have hcd : chunkDocument csz ovb mn doc = chunkDocGo csz ovb mn doc.filename doc.pages 0 := rfl
  rw [hcd]
  constructor
  · rw [List.range_eq_range']
    exact h1
  · have hmapF : ((chunkDocGo csz ovb mn doc.filename doc.pages 0).map TextChunk.chunk_id).map
        (fun s : String => s.data.reverse.takeWhile (fun c => c.isDigit)) =
        (chunkDocGo csz ovb mn doc.filename doc.pages 0).map
          (fun c => (natRepr c.chunk_index).reverse) := by
      rw [List.map_map]
      apply List.map_congr_left
      intro c hc
      obtain ⟨pg, hid⟩ := h2 c hc
      show c.chunk_id.data.reverse.takeWhile (fun c => c.isDigit) = _
      rw [hid, mkChunkId_extract]
    have hninj : Function.Injective (fun i : Nat => (natRepr i).reverse) := by
      intro i j hij
      exact natRepr_inj i j (List.reverse_injective hij)
    have hidx : ((chunkDocGo csz ovb mn doc.filename doc.pages 0).map
        TextChunk.chunk_index).Nodup := by
      rw [h1]
      exact List.nodup_range' _ _
    have hrevs : ((chunkDocGo csz ovb mn doc.filename doc.pages 0).map
        (fun c => (natRepr c.chunk_index).reverse)).Nodup := by
      have he : (chunkDocGo csz ovb mn doc.filename doc.pages 0).map
          (fun c => (natRepr c.chunk_index).reverse) =
          ((chunkDocGo csz ovb mn doc.filename doc.pages 0).map TextChunk.chunk_index).map
            (fun i => (natRepr i).reverse) := by
        rw [List.map_map]
        rfl
      rw [he]
      exact hidx.map hninj
    rw [← hmapF] at hrevs
    exact List.Nodup.of_map _ hrevs

/-! ## C6: topics are never empty -/

/-- Claim C6 (status: confirmed): for every chunk text, `tag_chunk` returns a
non-empty `topics` list, and when no topic keyword category matches the text
the result is exactly the single default entry
`{main: General, sub: Uncategorized}`. -/
theorem C6_topics_nonempty (now text : String) :
    (tagChunk now text).topics ≠ [] ∧
    (findMatches text topicKeywords = [] →
      (tagChunk now text).topics = [⟨"General", "Uncategorized", none⟩]) := by
  constructor
  · by_cases h : toHierarchicalTopics (findMatches text topicKeywords) = []
    · simp [tagChunk, h]
    · simp [tagChunk, h]
  · intro h
    simp [tagChunk, toHierarchicalTopics, h]

/-- Witness for C6: the text "zzz" matches no topic keyword category, and its
topics are exactly the default entry. -/
theorem C6_witness :
    (tagChunk "2026-01-01T00:00:00" "zzz").topics = [⟨"General", "Uncategorized", none⟩] :=
  (C6_topics_nonempty "2026-01-01T00:00:00" "zzz").2 (by decide)

/-! ## C7: income ranges are normalised, duplicate-free and sorted -/

/-- Claim C7 (status: confirmed): every element of `tag_chunk(text).income_ranges`
is drawn from the fixed normalised set, occurs at most once, and the list is
sorted lexicographically, hence deterministic for a given text. -/
theorem C7_income_ranges (now text : String) :
    (∀ x ∈ (tagChunk now text).income_ranges, x ∈ normalizedIncomeRanges) ∧
    (tagChunk now text).income_ranges.Nodup ∧
    (tagChunk now text).income_ranges.Sorted (fun a b : String => a ≤ b) := by
  have hsub : (findMatches text incomeKeywords).Sublist (incomeKeywords.map Prod.fst) :=
    findMatches_sublist text incomeKeywords
  have hkeys : incomeKeywords.map Prod.fst = normalizedIncomeRanges := by decide
  have hperm : (pySortedStr (findMatches text incomeKeywords)).Perm
      (findMatches text incomeKeywords) :=
    List.perm_insertionSort _ _
  have hir : (tagChunk now text).income_ranges = pySortedStr (findMatches text incomeKeywords) := rfl
  refine ⟨?_, ?_, ?_⟩
  · intro x hx
    rw [hir] at hx
    have : x ∈ findMatches text incomeKeywords := hperm.mem_iff.mp hx
    have := hsub.subset this
    rwa [hkeys] at this
  · rw [hir]
    exact hperm.nodup_iff.mpr (hsub.nodup (by rw [hkeys]; decide))
  · rw [hir]
    exact List.sorted_insertionSort _ _

/-! ## C8: answer citations cover exactly the top-ranked chunks -/

/-- Claim C8 (status: confirmed): for every question and list of retrieved
chunks, the response object's sources are exactly the top
`min(max_context_chunks, length)` chunks by descending similarity (the
retrieved list splits, up to permutation, into the selected chunks and a
remainder of no higher similarity), with `max_context_chunks = 3` smaller
than the retrieval `top_k = 5`, and each selected chunk cited as its document
name, page number, similarity rounded to 3 decimals, and excerpt equal to the
chunk text when at most 200 characters and to its first 200 characters
followed by "..." otherwise. -/
theorem C8_sources (llm : String → String → String) (query : String)
    (chunks : List RetrievedChunk) :
    ∃ sel rest, chunks.Perm (sel ++ rest) ∧
      (ragGenerate llm query chunks).sources = sel.map citeSource ∧
      sel.length = min MAX_CONTEXT_CHUNKS chunks.length ∧
      sel.Sorted simDesc ∧
      (∀ a ∈ sel, ∀ b ∈ rest, b.similarity ≤ a.similarity) ∧
      MAX_CONTEXT_CHUNKS = 3 ∧ TOP_K = 5 ∧
      (∀ s ∈ sel, citeSource s =
        { document := s.document_name, page := s.page_number,
          similarity := roundTo3 s.similarity,
          excerpt := if 200 < s.text.length then s.text.take 200 ++ "..." else s.text }) := by
  refine ⟨(chunks.insertionSort simDesc).take MAX_CONTEXT_CHUNKS,
    (chunks.insertionSort simDesc).drop MAX_CONTEXT_CHUNKS, ?_, rfl, ?_, ?_, ?_, rfl, rfl, ?_⟩
  · rw [List.take_append_drop]
    exact (List.perm_insertionSort simDesc chunks).symm
  · rw [List.length_take, (List.perm_insertionSort simDesc chunks).length_eq]
  · exact List.Pairwise.sublist (List.take_sublist _ _) (List.sorted_insertionSort simDesc chunks)
  · intro a ha b hb
    have hpw : List.Pairwise simDesc (chunks.insertionSort simDesc) :=
      List.sorted_insertionSort simDesc chunks
    rw [← List.take_append_drop MAX_CONTEXT_CHUNKS (chunks.insertionSort simDesc)] at hpw
    exact (List.pairwise_append.mp hpw).2.2 a ha b hb
  · intro s _
    rfl

/-! ## C9: extraction fallback control flow -/

/-- Claim C9 (status: confirmed): for a validated file whose primary engine
raises, the fallback engine (when enabled) is attempted on the whole file; if
both engines raise, `load_pdf` returns no document; any document returned in
that situation carries exactly the fallback engine's page list (never a mix of
the two engines' per-page results) and records the fallback engine as its
extraction method. -/
theorem C9_fallback_extraction (filename fileHash eMsg : String)
    (primary fallbackRes : Except String (List PageContent))
    (hp : primary = Except.error eMsg) :
    (∀ fMsg, fallbackRes = Except.error fMsg →
      loadPdf true true filename fileHash primary fallbackRes = none) ∧
    (∀ ps, fallbackRes = Except.ok ps → ps ≠ [] →
      ∃ doc, loadPdf true true filename fileHash primary fallbackRes = some doc ∧
        doc.extraction_method = "pdfplumber" ∧ doc.pages = ps) ∧
    (∀ useFb doc, loadPdf true useFb filename fileHash primary fallbackRes = some doc →
      ∃ ps, fallbackRes = Except.ok ps ∧ doc.pages = ps ∧
        doc.extraction_method = "pdfplumber") := by
  subst hp
  refine ⟨?_, ?_, ?_⟩
  · intro fMsg hf
    subst hf
    rfl
  · intro ps hf hne
    subst hf
    refine ⟨{ filename := filename, total_pages := ps.length, pages := ps,
              extraction_method := "pdfplumber", file_hash := fileHash,
              total_chars := (ps.map PageContent.char_count).sum,
              total_words := (ps.map PageContent.word_count).sum }, ?_, rfl, rfl⟩
    simp [loadPdf, finishLoad, hne]
  · intro useFb doc hdoc
    cases useFb with
    | false => simp [loadPdf] at hdoc
    | true =>
      cases fallbackRes with
      | error m => simp [loadPdf] at hdoc
      | ok ps =>
        by_cases hne : ps = []
        · subst hne
          simp [loadPdf, finishLoad] at hdoc
        · have heq : loadPdf true true filename fileHash (Except.error eMsg) (Except.ok ps) =
              some { filename := filename, total_pages := ps.length, pages := ps,
                     extraction_method := "pdfplumber", file_hash := fileHash,
                     total_chars := (ps.map PageContent.char_count).sum,
                     total_words := (ps.map PageContent.word_count).sum } := by
            simp [loadPdf, finishLoad, hne]
          rw [heq] at hdoc
          obtain rfl : _ = doc := Option.some.inj hdoc
          exact ⟨ps, rfl, rfl, rfl⟩

/-! ## C10: pages below the minimum chunk size produce no chunks -/

/-- Lemma: the closed-chunks component of the packing loop only ever grows:
the initial chunk list is a prefix of the final one. -/
theorem packLoop_chunks_pre (cs ov : Nat) :
    ∀ (l : List String) (chunks : List (List String)) (cur : List String) (tok : Nat),
      chunks <+: (packLoop cs ov l chunks cur tok).1
  | [], chunks, cur, tok => List.prefix_refl _
  | s :: rest, chunks, cur, tok => by
    unfold packLoop
    by_cases hc : cs < tok + estimateTokens s ∧ cur ≠ []
    · rw [if_pos hc]
      exact (List.prefix_append chunks [cur]).trans (packLoop_chunks_pre cs ov rest _ _ _)
    · rw [if_neg hc]
      exact packLoop_chunks_pre cs ov rest _ _ _

/-- Lemma: when the packing loop closes no chunk at all, every sentence ends
up in the trailing candidate chunk, whose running token count is the sum of
the per-sentence estimates. -/
theorem packLoop_no_close (cs ov : Nat) :
    ∀ (l cur : List String) (tok : Nat),
      (packLoop cs ov l [] cur tok).1 = [] →
      packLoop cs ov l [] cur tok = ([], cur ++ l, tok + (l.map estimateTokens).sum)
  | [], cur, tok, _ => by simp [packLoop]
  | s :: rest, cur, tok, h => by
    unfold packLoop at h ⊢
    by_cases hc : cs < tok + estimateTokens s ∧ cur ≠ []
    · rw [if_pos hc] at h
      dsimp only at h
      exfalso
      have hpre := packLoop_chunks_pre cs ov rest ([] ++ [cur])
        ((overlapGo ov cur.reverse 0 []).1 ++ [s])
        ((overlapGo ov cur.reverse 0 []).2 + estimateTokens s)
      rw [h] at hpre
      simp at hpre
    · rw [if_neg hc] at h ⊢
      have hrec := packLoop_no_close cs ov rest (cur ++ [s]) (tok + estimateTokens s) h
      rw [hrec]
      simp [Nat.add_assoc]

/-- Claim C10 (status: confirmed): at the default configuration (chunk size
500, overlap 50, minimum chunk size 100), a page whose entire text packs into
a single candidate chunk (the loop closes no chunk) with estimated token
count below `100 // 4 = 25` contributes no chunks at all: `chunk_page`
returns the empty list for it, and the document-wide chunk counter is left
unchanged by that page. -/
theorem C10_short_page (docName : String) (pg : PageContent) (page startIdx counter : Nat)
    (rest : List PageContent)
    (h1 : (packLoop 500 50 (splitIntoSentences (pyStrip pg.text)) [] [] 0).1 = [])
    (h2 : estimateTokens (joinSp (splitIntoSentences (pyStrip pg.text))) < 25) :
    chunkPage 500 50 100 docName page pg.text startIdx = [] ∧
    chunkDocGo 500 50 100 docName (pg :: rest) counter =
      chunkDocGo 500 50 100 docName rest counter := by
  have hsplit : splitText 500 50 100 pg.text = [] := by
    by_cases hns : pyStrip pg.text = ""
    · unfold splitText
      rw [if_pos hns]
    · by_cases hse : splitIntoSentences (pyStrip pg.text) = []
      · unfold splitText
        rw [if_neg hns]
        dsimp only
        rw [if_pos hse]
      · have hr := packLoop_no_close 500 50 (splitIntoSentences (pyStrip pg.text)) [] 0 h1
        rw [List.nil_append, Nat.zero_add] at hr
        unfold splitText createChunksFromSentences packSentences
        rw [if_neg hns]
        dsimp only
        rw [if_neg hse, hr]
        dsimp only
        have hcond : ¬(splitIntoSentences (pyStrip pg.text) ≠ [] ∧
            100 / 4 ≤ estimateTokens (joinSp (splitIntoSentences (pyStrip pg.text)))) := by
          rintro ⟨-, hge⟩
          omega
        rw [if_neg hcond]
        rfl
  have hcp : ∀ (p i : Nat), chunkPage 500 50 100 docName p pg.text i = [] := by
    intro p i
    unfold chunkPage
    rw [hsplit]
    rfl
  refine ⟨hcp page startIdx, ?_⟩
  show chunkPage 500 50 100 docName pg.page_number pg.text counter ++
      chunkDocGo 500 50 100 docName rest
        (counter + (chunkPage 500 50 100 docName pg.page_number pg.text counter).length) =
    chunkDocGo 500 50 100 docName rest counter
  rw [hcp, List.length_nil, Nat.add_zero, List.nil_append]

/-- Witness for C10: the page text "Hello world." forms a single candidate of
3 estimated tokens, below 25, so the page yields no chunks and leaves the
counter unchanged. -/
theorem C10_witness :
    chunkPage 500 50 100 "budget.pdf" 3 "Hello world." 7 = [] ∧
    chunkDocGo 500 50 100 "budget.pdf" [⟨3, "Hello world.", 12, 2, false, false⟩] 7 =
      chunkDocGo 500 50 100 "budget.pdf" [] 7 :=
  C10_short_page "budget.pdf" ⟨3, "Hello world.", 12, 2, false, false⟩ 3 7 7 []
    (by decide) (by decide)

/-- Witness for C9: a concrete validated file whose primary engine raises and
whose fallback succeeds with one page yields the fallback document. -/
theorem C9_witness :
    ∃ doc, loadPdf true true "budget.pdf" "cafe01" (Except.error "pymupdf failed")
        (Except.ok [⟨1, "Budget text", 11, 2, false, false⟩]) = some doc ∧
      doc.extraction_method = "pdfplumber" ∧
      doc.pages = [⟨1, "Budget text", 11, 2, false, false⟩] :=
  (C9_fallback_extraction "budget.pdf" "cafe01" "pymupdf failed" _ _ rfl).2.1
    [⟨1, "Budget text", 11, 2, false, false⟩] rfl (by decide)

end BudgetAI
